import Mathlib

/-!
Verification of the closure-and-iteration core of the `vector` repository:
the iterating VRL stdlib functions `for_each` (src/lib/vrl/stdlib/src/for_each.rs)
and `map_values` (src/lib/vrl/stdlib/src/map_values.rs), and the batch
telemetry aggregator `RequestMetadata::from_batch`
(src/lib/vector-common/src/request_metadata.rs).

The VRL runtime library (the `Value` tree, its iterator, `FunctionClosure`,
`Kind`/`TypeDef`) lives outside the given sources; those parts are modelled
from the specification and marked as such in their doc comments.  The two
`resolve` functions, the two `call_by_vm` entry points, the two `type_def`
functions and `from_batch` are translated directly from the Rust sources.
-/

namespace Vector

/-- The dynamically-typed runtime value tree.  Modelled from the spec: a tagged
variant Null, Boolean, Integer, Float, Bytes, Timestamp, Regex, Array (ordered
sequence), Object (string-keyed map, iteration order = insertion order).  The
scalar encodings of Float, Bytes, Timestamp and Regex are opaque leaf kinds, so
they are carried here by arbitrary fixed carriers. -/
inductive Value where
  | null
  | boolean (b : Bool)
  | integer (i : Int)
  | float (bits : Nat)
  | bytes (s : String)
  | timestamp (t : Int)
  | regex (r : String)
  | array (elements : List Value)
  | object (entries : List (String × Value))

/-- The unit produced by traversing a `Value`: a bare value, a (key, value)
object entry, or an (index, value) array entry.  Translated from the
`IterItem` enum matched in both `resolve` functions. -/
inductive IterItem where
  | value (v : Value)
  | keyValue (k : String) (v : Value)
  | indexValue (i : Nat) (v : Value)

/-- Runtime errors: the error produced by coercing a non-boolean `recursive`
argument (`Value::try_boolean`), and arbitrary errors raised by a closure
body or an operand expression. -/
inductive RuntimeError where
  | expectedBoolean (got : Value)
  | message (msg : String)

/-- Modelled from the spec: `Value::try_boolean` used on the resolved
`recursive` argument in `MapValuesFn::resolve` (`.try_boolean()?`): succeeds
exactly on Boolean values and fails with a runtime error otherwise. -/
def Value.tryBoolean : Value → Except RuntimeError Bool
  | .boolean b => .ok b
  | v => .error (.expectedBoolean v)

/-- Modelled from the spec: the non-recursive traversal of `into_iter(false)`.
An Object yields one (key, value) item per entry in insertion order; an Array
yields one (index, value) item per entry with indices ascending from zero; a
scalar yields zero items. -/
def Value.iterItems : Value → List IterItem
  | .object entries => entries.map (fun e => IterItem.keyValue e.1 e.2)
  | .array elements => elements.enum.map (fun e => IterItem.indexValue e.1 e.2)
  | _ => []

/-- The compiled closure attached to an iterating function call, over an
abstract mutable context/scope `σ`.  Modelled from the spec (Closure
Contract): `run_key_value` and `run_index_value` bind the variables, run the
body and discard its result (returning the updated scope); `map_value` binds
the value, runs the body and writes the body's result back in place of the
original value, returned here as the second component. -/
structure FunctionClosure (σ : Type) where
  runKeyValue : σ → String → Value → Except RuntimeError σ
  runIndexValue : σ → Nat → Value → Except RuntimeError σ
  mapValue : σ → Value → Except RuntimeError (σ × Value)

/-- A resolvable expression over the mutable context `σ`: resolving yields an
updated context and a `Value`, or a runtime error. -/
def Expression (σ : Type) : Type := σ → Except RuntimeError (σ × Value)

/-- One iteration step of `ForEachFn::resolve`: dispatch a `KeyValue` item to
`run_key_value`, an `IndexValue` item to `run_index_value`, and skip every
other item (the `_ => {}` arm). -/
def forEachStep {σ : Type} (c : FunctionClosure σ) (s : σ) : IterItem → Except RuntimeError σ
  | .keyValue k v => c.runKeyValue s k v
  | .indexValue i v => c.runIndexValue s i v
  | .value _ => .ok s

/-- The `for item in iter.by_ref()` loop of `ForEachFn::resolve`, with the
`?` operator aborting on the first error. -/
def forEachLoop {σ : Type} (c : FunctionClosure σ) (s : σ) : List IterItem → Except RuntimeError σ
  | [] => .ok s
  | item :: rest =>
    match forEachStep c s item with
    | .error e => .error e
    | .ok s₁ => forEachLoop c s₁ rest

/-- `ForEachFn::resolve`, translated from src/lib/vrl/stdlib/src/for_each.rs:
resolve the target value, iterate `into_iter(false)` dispatching each item to
the closure, and on exhaustion return `Value::Null`. -/
def ForEachFn.resolve {σ : Type} (c : FunctionClosure σ) (value : Expression σ)
    (s : σ) : Except RuntimeError (σ × Value) :=
  match value s with
  | .error e => .error e
  | .ok (s₁, v) =>
    match forEachLoop c s₁ v.iterItems with
    | .error e => .error e
    | .ok s₂ => .ok (s₂, Value.null)

/-- The per-entry pass of the non-recursive `map_values` iteration over object
entries: each entry's value is passed through `map_value` and the returned
value replaces it, threading the context left to right and aborting on the
first error.  Modelled from the spec together with the
`IterItem::KeyValue(_, value) => value` extraction in `MapValuesFn::resolve`. -/
def mapObjEntries {σ : Type} (f : σ → Value → Except RuntimeError (σ × Value)) (s : σ) :
    List (String × Value) → Except RuntimeError (σ × List (String × Value))
  | [] => .ok (s, [])
  | (k, v) :: rest =>
    match f s v with
    | .error e => .error e
    | .ok (s₁, v₁) =>
      match mapObjEntries f s₁ rest with
      | .error e => .error e
      | .ok (s₂, rest₁) => .ok (s₂, (k, v₁) :: rest₁)

/-- The per-element pass of the non-recursive `map_values` iteration over
array elements, analogous to `mapObjEntries`. -/
def mapArrElems {σ : Type} (f : σ → Value → Except RuntimeError (σ × Value)) (s : σ) :
    List Value → Except RuntimeError (σ × List Value)
  | [] => .ok (s, [])
  | v :: rest =>
    match f s v with
    | .error e => .error e
    | .ok (s₁, v₁) =>
      match mapArrElems f s₁ rest with
      | .error e => .error e
      | .ok (s₂, rest₁) => .ok (s₂, v₁ :: rest₁)

/-- Modelled from the spec: the composite of `into_iter(false)`, the
`map_value` loop of `MapValuesFn::resolve`, and the `iter.into()`
reconstruction.  Every top-level slot of a container is replaced by what the
closure wrote back; a scalar produces zero items, so reconstruction returns
the original value unchanged (identity law of the iterator). -/
def mapValuesShallow {σ : Type} (f : σ → Value → Except RuntimeError (σ × Value)) (s : σ) :
    Value → Except RuntimeError (σ × Value)
  | .object entries => (mapObjEntries f s entries).map (fun p => (p.1, Value.object p.2))
  | .array elements => (mapArrElems f s elements).map (fun p => (p.1, Value.array p.2))
  | v => .ok (s, v)

mutual

/-- Modelled from the spec: the recursive (`recursive: true`) traversal of
`into_iter(true)` combined with the `map_value` loop and reconstruction.
Every entry at every depth is visited depth-first; the children of a container
entry are visited (and their replacements installed) before the entry's own
reconstructed value is passed through `map_value`. -/
def mapValuesDeep {σ : Type} (f : σ → Value → Except RuntimeError (σ × Value)) (s : σ) :
    Value → Except RuntimeError (σ × Value)
  | .object entries => (mapObjDeep f s entries).map (fun p => (p.1, Value.object p.2))
  | .array elements => (mapArrDeep f s elements).map (fun p => (p.1, Value.array p.2))
  | v => .ok (s, v)

/-- Depth-first pass over object entries for the recursive traversal. -/
def mapObjDeep {σ : Type} (f : σ → Value → Except RuntimeError (σ × Value)) (s : σ) :
    List (String × Value) → Except RuntimeError (σ × List (String × Value))
  | [] => .ok (s, [])
  | (k, v) :: rest =>
    match mapValuesDeep f s v with
    | .error e => .error e
    | .ok (s₁, v₁) =>
      match f s₁ v₁ with
      | .error e => .error e
      | .ok (s₂, v₂) =>
        match mapObjDeep f s₂ rest with
        | .error e => .error e
        | .ok (s₃, rest₁) => .ok (s₃, (k, v₂) :: rest₁)

/-- Depth-first pass over array elements for the recursive traversal. -/
def mapArrDeep {σ : Type} (f : σ → Value → Except RuntimeError (σ × Value)) (s : σ) :
    List Value → Except RuntimeError (σ × List Value)
  | [] => .ok (s, [])
  | v :: rest =>
    match mapValuesDeep f s v with
    | .error e => .error e
    | .ok (s₁, v₁) =>
      match f s₁ v₁ with
      | .error e => .error e
      | .ok (s₂, v₂) =>
        match mapArrDeep f s₂ rest with
        | .error e => .error e
        | .ok (s₃, rest₁) => .ok (s₃, v₂ :: rest₁)

end

/-- Modelled from the spec: the processing of one visited entry of the
recursive traversal — the entry's children are visited (and their
replacements installed) first, then the entry's own reconstructed value is
passed through `map_value`; the first error of either stage propagates. -/
def mapEntryDeep {σ : Type} (f : σ → Value → Except RuntimeError (σ × Value)) (s : σ)
    (v : Value) : Except RuntimeError (σ × Value) :=
  match mapValuesDeep f s v with
  | .error e => .error e
  | .ok (s₁, v₁) => f s₁ v₁

/-- Modelled from the spec: `value.into_iter(recursive)` followed by the
`map_value` loop and `iter.into()` reconstruction, selecting the traversal
depth by the resolved `recursive` flag. -/
def intoIterMap {σ : Type} (f : σ → Value → Except RuntimeError (σ × Value))
    (recursive : Bool) (s : σ) (v : Value) : Except RuntimeError (σ × Value) :=
  if recursive then mapValuesDeep f s v else mapValuesShallow f s v

/-- The `recursive` prologue of `MapValuesFn::resolve`: an absent argument
means `false`; a present one is resolved and then coerced with
`try_boolean`, each `?` aborting with the error. -/
def resolveRecursiveFlag {σ : Type} (recursive : Option (Expression σ)) (s : σ) :
    Except RuntimeError (σ × Bool) :=
  match recursive with
  | none => .ok (s, false)
  | some expr =>
    match expr s with
    | .error e => .error e
    | .ok (s₁, rv) =>
      match rv.tryBoolean with
      | .error e => .error e
      | .ok b => .ok (s₁, b)

/-- `MapValuesFn::resolve`, translated from
src/lib/vrl/stdlib/src/map_values.rs: first resolve the `recursive` argument
(defaulting to `false` when absent, coercing with `try_boolean`), then resolve
the target value, then iterate with that recursion setting passing every
item's value component through `map_value`, and return the reconstruction. -/
def MapValuesFn.resolve {σ : Type} (c : FunctionClosure σ) (value : Expression σ)
    (recursive : Option (Expression σ)) (s : σ) : Except RuntimeError (σ × Value) :=
  match resolveRecursiveFlag recursive s with
  | .error e => .error e
  | .ok (s₁, flag) =>
    match value s₁ with
    | .error e => .error e
    | .ok (s₂, v) => intoIterMap c.mapValue flag s₂ v

/-- Outcome of a VM entry point (`call_by_vm`): a value, an error value, or a
panic (an abnormal crash, as produced by the Rust `todo!()` macro). -/
inductive VmOutcome where
  | ok (v : Value)
  | error (msg : String)
  | panicked (msg : String)

/-- Whether a VM outcome is an error value (as opposed to a result or a
crash). -/
def VmOutcome.isError : VmOutcome → Bool
  | .error _ => true
  | _ => false

/-- `ForEach::call_by_vm`, translated from for_each.rs: unconditionally
returns the distinct "unavailable in this execution mode" error value. -/
def ForEach.call_by_vm : VmOutcome :=
  .error "function currently unavailable in VM runtime"

/-- `MapValues::call_by_vm`, translated from map_values.rs: the body is
`todo!()`, which panics with the standard "not yet implemented" message. -/
def MapValues.call_by_vm : VmOutcome :=
  .panicked "not yet implemented"

/-- Modelled from the spec: the compile-time `Kind` lattice element, as far as
the claims need it — the constructors `Kind::object(element-kind)` and
`Kind::array(element-kind)` build container kinds around an element kind (the
collection of unknown element kind, `Collection::from_unknown`), and the
remaining variants are leaf kinds. -/
inductive Kind where
  | any
  | nullKind
  | booleanKind
  | bytesKind
  | integerKind
  | object (elem : Kind)
  | array (elem : Kind)
deriving DecidableEq

/-- Modelled from the spec: a `TypeDef` pairs a `Kind` with a fallibility
flag. -/
structure TypeDef where
  kind : Kind
  fallible : Bool
deriving DecidableEq

/-- Modelled from the spec: `TypeDef::object(Collection::from_unknown(k))`,
the object-shaped type definition whose unknown element kind is `k`,
initially infallible. -/
def TypeDef.objectFromUnknown (k : Kind) : TypeDef :=
  { kind := Kind.object k, fallible := false }

/-- Modelled from the spec: `TypeDef::with_fallibility`. -/
def TypeDef.withFallibility (td : TypeDef) (b : Bool) : TypeDef :=
  { td with fallible := b }

/-- `MapValuesFn::type_def`, translated from map_values.rs: it consults only
the closure's type definition — never the target operand's, whose type
definition is taken here as an (ignored) argument to make that observable —
and returns `TypeDef::object(Collection::from_unknown(closure kind))` with
the closure's fallibility. -/
def MapValuesFn.type_def (valueTd : TypeDef) (closureTd : TypeDef) : TypeDef :=
  (TypeDef.objectFromUnknown closureTd.kind).withFallibility closureTd.fallible

/-- The width of the Rust `usize` type on the 64-bit targets vector ships
for. -/
def USIZE : Nat := 2 ^ 64

/-- Rust release-profile `usize` addition: wraps modulo `2 ^ 64`. -/
def usizeAdd (a b : Nat) : Nat := (a + b) % USIZE

/-- `RequestMetadata`, translated from
src/lib/vector-common/src/request_metadata.rs: four `usize` counters. -/
structure RequestMetadata where
  event_count : Nat
  events_byte_size : Nat
  request_encoded_size : Nat
  request_wire_size : Nat

/-- `RequestMetadata::from_batch`, translated from request_metadata.rs: start
all four accumulators at zero and add the corresponding field of every record
of the batch in order, with `usize` arithmetic. -/
def RequestMetadata.from_batch (metadata_vec : List RequestMetadata) : RequestMetadata :=
  metadata_vec.foldl
    (fun acc m =>
      { event_count := usizeAdd acc.event_count m.event_count
        events_byte_size := usizeAdd acc.events_byte_size m.events_byte_size
        request_encoded_size := usizeAdd acc.request_encoded_size m.request_encoded_size
        request_wire_size := usizeAdd acc.request_wire_size m.request_wire_size })
    { event_count := 0, events_byte_size := 0, request_encoded_size := 0, request_wire_size := 0 }

/-- The identity closure: it runs the key/value and index/value bodies with no
effect and writes every value back unchanged. -/
def idClosure (σ : Type) : FunctionClosure σ :=
  { runKeyValue := fun s _ _ => .ok s
    runIndexValue := fun s _ _ => .ok s
    mapValue := fun s v => .ok (s, v) }

/-- An expression that records a tag in a trace context and yields a fixed
value; used to observe the order in which `resolve` evaluates its operands. -/
def traceExpr (tag : String) (v : Value) : Expression (List String) :=
  fun s => .ok (s ++ [tag], v)

/-- A closure whose every entry point fails with the same runtime error;
used to exhibit error propagation at concrete inputs. -/
def errClosure : FunctionClosure Unit :=
  { runKeyValue := fun _ _ _ => .error (.message "boom")
    runIndexValue := fun _ _ _ => .error (.message "boom")
    mapValue := fun _ _ => .error (.message "boom") }

/-! ## Helper lemmas -/

/-- Splitting the for_each loop at a list append: the suffix runs from the
state the prefix produced, and a prefix error short-circuits. -/
theorem forEachLoop_append {σ : Type} (c : FunctionClosure σ) (s : σ)
    (xs ys : List IterItem) :
    forEachLoop c s (xs ++ ys) =
      match forEachLoop c s xs with
      | .error e => .error e
      | .ok s₁ => forEachLoop c s₁ ys := by
  induction xs generalizing s with
  | nil => simp [forEachLoop]
  | cons it rest ih =>
    simp only [List.cons_append, forEachLoop]
    cases forEachStep c s it <;> simp [ih]

/-- Splitting the map_values object pass at a list append. -/
theorem mapObjEntries_append {σ : Type} (f : σ → Value → Except RuntimeError (σ × Value))
    (s : σ) (xs ys : List (String × Value)) :
    mapObjEntries f s (xs ++ ys) =
      match mapObjEntries f s xs with
      | .error e => .error e
      | .ok (s₁, xs₁) =>
        match mapObjEntries f s₁ ys with
        | .error e => .error e
        | .ok (s₂, ys₁) => .ok (s₂, xs₁ ++ ys₁) := by
  induction xs generalizing s with
  | nil =>
    simp only [List.nil_append, mapObjEntries]
    cases mapObjEntries f s ys with
    | error e => rfl
    | ok p => rfl
  | cons kv rest ih =>
    obtain ⟨k, v⟩ := kv
    cases hf : f s v with
    | error e => simp [mapObjEntries, hf]
    | ok p =>
      obtain ⟨s₁, v₁⟩ := p
      have hrec := ih s₁
      cases hr : mapObjEntries f s₁ rest with
      | error e =>
        rw [hr] at hrec
        simp [mapObjEntries, hf, hrec, hr]
      | ok q =>
        obtain ⟨s₂, rest₁⟩ := q
        rw [hr] at hrec
        cases hy : mapObjEntries f s₂ ys with
        | error e => simp [mapObjEntries, hf, hrec, hr, hy]
        | ok r => simp [mapObjEntries, hf, hrec, hr, hy]

/-- Splitting the map_values array pass at a list append. -/
theorem mapArrElems_append {σ : Type} (f : σ → Value → Except RuntimeError (σ × Value))
    (s : σ) (xs ys : List Value) :
    mapArrElems f s (xs ++ ys) =
      match mapArrElems f s xs with
      | .error e => .error e
      | .ok (s₁, xs₁) =>
        match mapArrElems f s₁ ys with
        | .error e => .error e
        | .ok (s₂, ys₁) => .ok (s₂, xs₁ ++ ys₁) := by
  induction xs generalizing s with
  | nil =>
    simp only [List.nil_append, mapArrElems]
    cases mapArrElems f s ys with
    | error e => rfl
    | ok p => rfl
  | cons v rest ih =>
    cases hf : f s v with
    | error e => simp [mapArrElems, hf]
    | ok p =>
      obtain ⟨s₁, v₁⟩ := p
      have hrec := ih s₁
      cases hr : mapArrElems f s₁ rest with
      | error e =>
        rw [hr] at hrec
        simp [mapArrElems, hf, hrec, hr]
      | ok q =>
        obtain ⟨s₂, rest₁⟩ := q
        rw [hr] at hrec
        cases hy : mapArrElems f s₂ ys with
        | error e => simp [mapArrElems, hf, hrec, hr, hy]
        | ok r => simp [mapArrElems, hf, hrec, hr, hy]

/-- Splitting the recursive object pass at a list append. -/
theorem mapObjDeep_append {σ : Type} (f : σ → Value → Except RuntimeError (σ × Value))
    (s : σ) (xs ys : List (String × Value)) :
    mapObjDeep f s (xs ++ ys) =
      match mapObjDeep f s xs with
      | .error e => .error e
      | .ok (s₁, xs₁) =>
        match mapObjDeep f s₁ ys with
        | .error e => .error e
        | .ok (s₂, ys₁) => .ok (s₂, xs₁ ++ ys₁) := by
  induction xs generalizing s with
  | nil =>
    simp only [List.nil_append, mapObjDeep]
    cases mapObjDeep f s ys with
    | error e => rfl
    | ok p => rfl
  | cons kv rest ih =>
    obtain ⟨k, v⟩ := kv
    cases hd : mapValuesDeep f s v with
    | error e => simp [mapObjDeep, hd]
    | ok p =>
      obtain ⟨s₁, v₁⟩ := p
      cases hf : f s₁ v₁ with
      | error e => simp [mapObjDeep, hd, hf]
      | ok q =>
        obtain ⟨s₂, v₂⟩ := q
        have hrec := ih s₂
        cases hr : mapObjDeep f s₂ rest with
        | error e =>
          rw [hr] at hrec
          simp [mapObjDeep, hd, hf, hrec, hr]
        | ok r =>
          obtain ⟨s₃, rest₁⟩ := r
          rw [hr] at hrec
          cases hy : mapObjDeep f s₃ ys with
          | error e => simp [mapObjDeep, hd, hf, hrec, hr, hy]
          | ok w => simp [mapObjDeep, hd, hf, hrec, hr, hy]

/-- Splitting the recursive array pass at a list append. -/
theorem mapArrDeep_append {σ : Type} (f : σ → Value → Except RuntimeError (σ × Value))
    (s : σ) (xs ys : List Value) :
    mapArrDeep f s (xs ++ ys) =
      match mapArrDeep f s xs with
      | .error e => .error e
      | .ok (s₁, xs₁) =>
        match mapArrDeep f s₁ ys with
        | .error e => .error e
        | .ok (s₂, ys₁) => .ok (s₂, xs₁ ++ ys₁) := by
  induction xs generalizing s with
  | nil =>
    simp only [List.nil_append, mapArrDeep]
    cases mapArrDeep f s ys with
    | error e => rfl
    | ok p => rfl
  | cons v rest ih =>
    cases hd : mapValuesDeep f s v with
    | error e => simp [mapArrDeep, hd]
    | ok p =>
      obtain ⟨s₁, v₁⟩ := p
      cases hf : f s₁ v₁ with
      | error e => simp [mapArrDeep, hd, hf]
      | ok q =>
        obtain ⟨s₂, v₂⟩ := q
        have hrec := ih s₂
        cases hr : mapArrDeep f s₂ rest with
        | error e =>
          rw [hr] at hrec
          simp [mapArrDeep, hd, hf, hrec, hr]
        | ok r =>
          obtain ⟨s₃, rest₁⟩ := r
          rw [hr] at hrec
          cases hy : mapArrDeep f s₃ ys with
          | error e => simp [mapArrDeep, hd, hf, hrec, hr, hy]
          | ok w => simp [mapArrDeep, hd, hf, hrec, hr, hy]

/-- The for_each loop over indexed items is a left fold of `run_index_value`
over the underlying (index, value) list. -/
theorem forEachLoop_indexValue_foldlM {σ : Type} (c : FunctionClosure σ)
    (l : List (Nat × Value)) (s : σ) :
    forEachLoop c s (l.map (fun e => IterItem.indexValue e.1 e.2)) =
      List.foldlM (fun st p => c.runIndexValue st p.1 p.2) s l := by
  induction l generalizing s with
  | nil => rfl
  | cons a rest ih =>
    obtain ⟨i, v⟩ := a
    rw [List.map_cons, List.foldlM_cons]
    cases h : c.runIndexValue s i v with
    | error e =>
      simp only [forEachLoop, forEachStep, h]
      rfl
    | ok s₁ =>
      simp only [forEachLoop, forEachStep, h]
      exact ih s₁

/-- A pointwise-identity pass over object entries returns the entries and the
context unchanged. -/
theorem mapObjEntries_id {σ : Type} (f : σ → Value → Except RuntimeError (σ × Value))
    (hid : ∀ (u : σ) (v : Value), f u v = .ok (u, v)) (s : σ)
    (entries : List (String × Value)) :
    mapObjEntries f s entries = .ok (s, entries) := by
  induction entries generalizing s with
  | nil => rfl
  | cons kv rest ih => obtain ⟨k, v⟩ := kv; simp [mapObjEntries, hid, ih]

/-- from_batch computes, field by field, the sum of the batch modulo the
usize width. -/
theorem from_batch_eq_mod (ms : List RequestMetadata) :
    RequestMetadata.from_batch ms =
      { event_count := (ms.map RequestMetadata.event_count).sum % USIZE
        events_byte_size := (ms.map RequestMetadata.events_byte_size).sum % USIZE
        request_encoded_size := (ms.map RequestMetadata.request_encoded_size).sum % USIZE
        request_wire_size := (ms.map RequestMetadata.request_wire_size).sum % USIZE } := by
  induction ms using List.reverseRecOn with
  | nil => simp [RequestMetadata.from_batch]
  | append_singleton l m ih =>
    unfold RequestMetadata.from_batch at ih ⊢
    rw [List.foldl_append, ih]
    simp [usizeAdd, Nat.mod_add_mod]

/-! ## Claim theorems -/

/-- C1: `for_each`'s VM entry point returns the distinct "unavailable in this
execution mode" error value, but `map_values`'s VM entry point is `todo!()`,
which panics ("not yet implemented") instead of returning an error value —
the code crashes where the claim requires an error result. -/
theorem vm_gate_forEach_errors_mapValues_panics :
    ForEach.call_by_vm = VmOutcome.error "function currently unavailable in VM runtime" ∧
    ForEach.call_by_vm.isError = true ∧
    MapValues.call_by_vm = VmOutcome.panicked "not yet implemented" ∧
    MapValues.call_by_vm.isError = false :=
  ⟨rfl, rfl, rfl, rfl⟩

/-- C4: the static type of `map_values` never depends on the target operand's
type definition (so it is the same object-shaped kind even when the input is
statically an array), its kind is the object kind built from the closure's
declared output kind, and its fallibility equals the closure body's. -/
theorem mapValues_type_def_object_shaped (valueTd valueTd' closureTd : TypeDef) :
    MapValuesFn.type_def valueTd closureTd = MapValuesFn.type_def valueTd' closureTd ∧
    (MapValuesFn.type_def valueTd closureTd).kind = Kind.object closureTd.kind ∧
    (MapValuesFn.type_def valueTd closureTd).fallible = closureTd.fallible :=
  ⟨rfl, rfl, rfl⟩

/-- C5 counterexample: `from_batch` adds with usize (wrapping) arithmetic, so
on the two-record batch whose event counts are `2 ^ 64 - 1` and `1` the
summed event count wraps to `0`, not to the element-wise sum `2 ^ 64`. -/
theorem from_batch_wraps_at_usize_max :
    (RequestMetadata.from_batch
        [{ event_count := USIZE - 1, events_byte_size := 0,
           request_encoded_size := 0, request_wire_size := 0 },
         { event_count := 1, events_byte_size := 0,
           request_encoded_size := 0, request_wire_size := 0 }]).event_count = 0 ∧
    (USIZE - 1) + 1 = USIZE ∧
    USIZE ≠ 0 := by
  refine ⟨?_, ?_, ?_⟩
  · show usizeAdd (usizeAdd 0 (USIZE - 1)) 1 = 0
    simp [usizeAdd, USIZE]
  · simp [USIZE]
  · simp [USIZE]

/-- C5 (amended): `from_batch` is pure and total, and each field of its result
is the element-wise sum of the corresponding fields modulo the usize width
`2 ^ 64`; whenever the mathematical sum fits in a usize, the field equals the
exact element-wise sum. -/
theorem from_batch_elementwise_sum (ms : List RequestMetadata) :
    ((RequestMetadata.from_batch ms).event_count
        = (ms.map RequestMetadata.event_count).sum % USIZE ∧
     (RequestMetadata.from_batch ms).events_byte_size
        = (ms.map RequestMetadata.events_byte_size).sum % USIZE ∧
     (RequestMetadata.from_batch ms).request_encoded_size
        = (ms.map RequestMetadata.request_encoded_size).sum % USIZE ∧
     (RequestMetadata.from_batch ms).request_wire_size
        = (ms.map RequestMetadata.request_wire_size).sum % USIZE) ∧
    (((ms.map RequestMetadata.event_count).sum < USIZE →
        (RequestMetadata.from_batch ms).event_count
          = (ms.map RequestMetadata.event_count).sum) ∧
     ((ms.map RequestMetadata.events_byte_size).sum < USIZE →
        (RequestMetadata.from_batch ms).events_byte_size
          = (ms.map RequestMetadata.events_byte_size).sum) ∧
     ((ms.map RequestMetadata.request_encoded_size).sum < USIZE →
        (RequestMetadata.from_batch ms).request_encoded_size
          = (ms.map RequestMetadata.request_encoded_size).sum) ∧
     ((ms.map RequestMetadata.request_wire_size).sum < USIZE →
        (RequestMetadata.from_batch ms).request_wire_size
          = (ms.map RequestMetadata.request_wire_size).sum)) := by
  rw [from_batch_eq_mod ms]
  refine ⟨⟨rfl, rfl, rfl, rfl⟩, ?_, ?_, ?_, ?_⟩ <;>
    exact fun hlt => Nat.mod_eq_of_lt hlt

/-- C9: the `_ => {}` arm of `for_each`'s loop skips a bare (plain) iteration
item: the step runs no closure entry point and leaves the context unchanged,
and inserting a plain item anywhere in the item sequence does not change the
loop's outcome. -/
theorem forEach_skips_plain_items {σ : Type} (c : FunctionClosure σ) (s : σ)
    (pre post : List IterItem) (v : Value) :
    forEachStep c s (IterItem.value v) = .ok s ∧
    forEachLoop c s (pre ++ IterItem.value v :: post) = forEachLoop c s (pre ++ post) := by
  refine ⟨rfl, ?_⟩
  induction pre generalizing s with
  | nil => rfl
  | cons it rest ih =>
    simp only [List.cons_append, forEachLoop]
    cases forEachStep c s it with
    | error e => rfl
    | ok s₁ => exact ih s₁

/-- C2: if the closure invocation on the k-th visited item fails, both
iterating functions abort at once — for every iteration target (objects and
arrays alike), for the non-recursive and the recursive traversal, and
wherever the failing item sits: the result is exactly that first error
(received by the caller unchanged), the arbitrary unvisited tails (`post`,
`epost`, `apost`) are universally quantified and never touched, and no
partial result is produced.  The deep-traversal conjuncts compose: an entry
whose own `map_value` invocation fails (fourth conjunct) or whose subtree
already failed (fifth) makes its node fail (sixth/seventh), and a failed
traversal reaches the caller verbatim (eighth). -/
theorem iteration_aborts_on_first_closure_error {σ : Type} (c : FunctionClosure σ)
    (e : RuntimeError) :
    (∀ (s s₁ : σ) (target : Value) (pre post : List IterItem) (item : IterItem),
        target.iterItems = pre ++ item :: post →
        forEachLoop c s pre = .ok s₁ →
        forEachStep c s₁ item = .error e →
        ForEachFn.resolve c (fun u => .ok (u, target)) s = .error e) ∧
    (∀ (recursive : Option (Expression σ)) (t₀ t t₁ : σ)
        (epre epre₁ : List (String × Value)) (key : String) (ev : Value)
        (epost : List (String × Value)),
        resolveRecursiveFlag recursive t₀ = .ok (t, false) →
        mapObjEntries c.mapValue t epre = .ok (t₁, epre₁) →
        c.mapValue t₁ ev = .error e →
        MapValuesFn.resolve c
            (fun u => .ok (u, Value.object (epre ++ (key, ev) :: epost))) recursive t₀
          = .error e) ∧
    (∀ (recursive : Option (Expression σ)) (t₀ t t₁ : σ) (apre apre₁ : List Value)
        (av : Value) (apost : List Value),
        resolveRecursiveFlag recursive t₀ = .ok (t, false) →
        mapArrElems c.mapValue t apre = .ok (t₁, apre₁) →
        c.mapValue t₁ av = .error e →
        MapValuesFn.resolve c
            (fun u => .ok (u, Value.array (apre ++ av :: apost))) recursive t₀
          = .error e) ∧
    (∀ (t t₂ : σ) (w w₁ : Value),
        mapValuesDeep c.mapValue t w = .ok (t₂, w₁) →
        c.mapValue t₂ w₁ = .error e →
        mapEntryDeep c.mapValue t w = .error e) ∧
    (∀ (t : σ) (w : Value),
        mapValuesDeep c.mapValue t w = .error e →
        mapEntryDeep c.mapValue t w = .error e) ∧
    (∀ (t t₁ : σ) (epre epre₁ : List (String × Value)) (key : String) (ev : Value)
        (epost : List (String × Value)),
        mapObjDeep c.mapValue t epre = .ok (t₁, epre₁) →
        mapEntryDeep c.mapValue t₁ ev = .error e →
        mapValuesDeep c.mapValue t (Value.object (epre ++ (key, ev) :: epost))
          = .error e) ∧
    (∀ (t t₁ : σ) (apre apre₁ : List Value) (av : Value) (apost : List Value),
        mapArrDeep c.mapValue t apre = .ok (t₁, apre₁) →
        mapEntryDeep c.mapValue t₁ av = .error e →
        mapValuesDeep c.mapValue t (Value.array (apre ++ av :: apost)) = .error e) ∧
    (∀ (recursive : Option (Expression σ)) (t₀ t : σ) (v : Value),
        resolveRecursiveFlag recursive t₀ = .ok (t, true) →
        mapValuesDeep c.mapValue t v = .error e →
        MapValuesFn.resolve c (fun u => .ok (u, v)) recursive t₀ = .error e) := by
  refine ⟨?_, ?_, ?_, ?_, ?_, ?_, ?_, ?_⟩
  · intro s s₁ target pre post item hsplit hpre hstep
    have hloop : forEachLoop c s target.iterItems = .error e := by
      rw [hsplit, forEachLoop_append, hpre]
      simp only [forEachLoop, hstep]
    simp only [ForEachFn.resolve, hloop]
  · intro recursive t₀ t t₁ epre epre₁ key ev epost hflag hmpre hmval
    have hobj : mapObjEntries c.mapValue t (epre ++ (key, ev) :: epost) = .error e := by
      rw [mapObjEntries_append, hmpre]
      simp only [mapObjEntries, hmval]
    simp only [MapValuesFn.resolve, hflag, intoIterMap, Bool.false_eq_true, if_false,
      mapValuesShallow, hobj, Except.map]
  · intro recursive t₀ t t₁ apre apre₁ av apost hflag hmpre hmval
    have harr : mapArrElems c.mapValue t (apre ++ av :: apost) = .error e := by
      rw [mapArrElems_append, hmpre]
      simp only [mapArrElems, hmval]
    simp only [MapValuesFn.resolve, hflag, intoIterMap, Bool.false_eq_true, if_false,
      mapValuesShallow, harr, Except.map]
  · intro t t₂ w w₁ h₁ h₂
    simp only [mapEntryDeep, h₁, h₂]
  · intro t w h
    simp only [mapEntryDeep, h]
  · intro t t₁ epre epre₁ key ev epost hpre hent
    unfold mapEntryDeep at hent
    have hcons : mapObjDeep c.mapValue t₁ ((key, ev) :: epost) = .error e := by
      cases hd : mapValuesDeep c.mapValue t₁ ev with
      | error e₁ =>
        rw [hd] at hent
        simp only [] at hent
        simp [mapObjDeep, hd, hent]
      | ok p =>
        obtain ⟨u, w⟩ := p
        rw [hd] at hent
        simp only [] at hent
        simp [mapObjDeep, hd, hent]
    simp only [mapValuesDeep, mapObjDeep_append, hpre, hcons, Except.map]
  · intro t t₁ apre apre₁ av apost hpre hent
    unfold mapEntryDeep at hent
    have hcons : mapArrDeep c.mapValue t₁ (av :: apost) = .error e := by
      cases hd : mapValuesDeep c.mapValue t₁ av with
      | error e₁ =>
        rw [hd] at hent
        simp only [] at hent
        simp [mapArrDeep, hd, hent]
      | ok p =>
        obtain ⟨u, w⟩ := p
        rw [hd] at hent
        simp only [] at hent
        simp [mapArrDeep, hd, hent]
    simp only [mapValuesDeep, mapArrDeep_append, hpre, hcons, Except.map]
  · intro recursive t₀ t v hflag hdeep
    simp only [MapValuesFn.resolve, hflag, intoIterMap, if_true, hdeep]

/-- C2 witness: an always-failing closure stops at the first visited item and
surfaces its error — on an object iterated by for_each, on an object and on
an array iterated non-recursively by map_values (the array with an explicit
`recursive: false` argument), and on an object iterated recursively by
map_values. -/
theorem iteration_aborts_witness :
    ForEachFn.resolve errClosure
        (fun u => .ok (u, Value.object [("a", Value.integer 1), ("b", Value.integer 2)])) ()
      = .error (RuntimeError.message "boom") ∧
    MapValuesFn.resolve errClosure
        (fun u => .ok (u, Value.object [("a", Value.integer 1), ("b", Value.integer 2)]))
        none ()
      = .error (RuntimeError.message "boom") ∧
    MapValuesFn.resolve errClosure
        (fun u => .ok (u, Value.array [Value.integer 1, Value.integer 2]))
        (some (fun u => .ok (u, Value.boolean false))) ()
      = .error (RuntimeError.message "boom") ∧
    MapValuesFn.resolve errClosure
        (fun u => .ok (u, Value.object [("a", Value.integer 1)]))
        (some (fun u => .ok (u, Value.boolean true))) ()
      = .error (RuntimeError.message "boom") :=
  ⟨(iteration_aborts_on_first_closure_error errClosure (RuntimeError.message "boom")).1
      () () (Value.object [("a", Value.integer 1), ("b", Value.integer 2)])
      [] [IterItem.keyValue "b" (Value.integer 2)] (IterItem.keyValue "a" (Value.integer 1))
      rfl rfl rfl,
   (iteration_aborts_on_first_closure_error errClosure (RuntimeError.message "boom")).2.1
      none () () () [] [] "a" (Value.integer 1) [("b", Value.integer 2)] rfl rfl rfl,
   (iteration_aborts_on_first_closure_error errClosure (RuntimeError.message "boom")).2.2.1
      (some (fun u => .ok (u, Value.boolean false))) () () () [] []
      (Value.integer 1) [Value.integer 2] rfl rfl rfl,
   (iteration_aborts_on_first_closure_error errClosure
        (RuntimeError.message "boom")).2.2.2.2.2.2.2
      (some (fun u => .ok (u, Value.boolean true))) () ()
      (Value.object [("a", Value.integer 1)]) rfl rfl⟩

/-- C3 counterexample: with tracing operand expressions, resolving map_values
records the `recursive` argument's effect before the target's — the observed
resolution order at this concrete input is recursive-then-target, not
target-then-recursive as the claim states. -/
theorem mapValues_resolves_recursive_before_target :
    MapValuesFn.resolve (idClosure (List String)) (traceExpr "value" (Value.object []))
        (some (traceExpr "recursive" (Value.boolean false))) []
      = .ok (["recursive", "value"], Value.object []) ∧
    (["recursive", "value"] : List String) ≠ ["value", "recursive"] := by
  exact ⟨rfl, by decide⟩

/-- C3 (amended): map_values resolves the `recursive` flag first (defaulting
to false when the argument is absent, and failing without consulting the
target when the flag's resolution or coercion fails), then resolves the
target value, and then iterates over the target with that recursion
setting. -/
theorem mapValues_resolve_order {σ : Type} (c : FunctionClosure σ) (s : σ) :
    (∀ (recExpr value : Expression σ) (e : RuntimeError),
        recExpr s = .error e →
        MapValuesFn.resolve c value (some recExpr) s = .error e) ∧
    (∀ (recExpr value : Expression σ) (s₁ : σ) (rv : Value) (e : RuntimeError),
        recExpr s = .ok (s₁, rv) → rv.tryBoolean = .error e →
        MapValuesFn.resolve c value (some recExpr) s = .error e) ∧
    (∀ (recExpr value : Expression σ) (s₁ : σ) (rv : Value) (b : Bool) (s₂ : σ) (v : Value),
        recExpr s = .ok (s₁, rv) → rv.tryBoolean = .ok b → value s₁ = .ok (s₂, v) →
        MapValuesFn.resolve c value (some recExpr) s = intoIterMap c.mapValue b s₂ v) ∧
    (∀ (value : Expression σ) (s₂ : σ) (v : Value),
        value s = .ok (s₂, v) →
        MapValuesFn.resolve c value none s = intoIterMap c.mapValue false s₂ v) := by
  refine ⟨?_, ?_, ?_, ?_⟩
  · intro recExpr value e h
    simp [MapValuesFn.resolve, resolveRecursiveFlag, h]
  · intro recExpr value s₁ rv e h₁ h₂
    simp [MapValuesFn.resolve, resolveRecursiveFlag, h₁, h₂]
  · intro recExpr value s₁ rv b s₂ v h₁ h₂ h₃
    simp [MapValuesFn.resolve, resolveRecursiveFlag, h₁, h₂, h₃]
  · intro value s₂ v h
    simp [MapValuesFn.resolve, resolveRecursiveFlag, h]

/-- C3 witness: the amended order at concrete inputs — a failing `recursive`
expression aborts map_values with its own error, and an absent `recursive`
argument iterates non-recursively over the resolved target. -/
theorem mapValues_resolve_order_witness :
    MapValuesFn.resolve (idClosure Unit) (fun u => .ok (u, Value.object []))
        (some (fun _ => .error (RuntimeError.message "recursive failed"))) ()
      = .error (RuntimeError.message "recursive failed") ∧
    MapValuesFn.resolve (idClosure Unit) (fun u => .ok (u, Value.object [])) none ()
      = intoIterMap (idClosure Unit).mapValue false () (Value.object []) :=
  ⟨(mapValues_resolve_order (idClosure Unit) ()).1 _ _ _ rfl,
   (mapValues_resolve_order (idClosure Unit) ()).2.2.2 _ _ _ rfl⟩

/-- C6: whenever for_each's resolve succeeds, the value it returns is the
null value, whatever the target and the closure did. -/
theorem forEach_success_returns_null {σ : Type} (c : FunctionClosure σ)
    (value : Expression σ) (s : σ) (p : σ × Value)
    (h : ForEachFn.resolve c value s = .ok p) : p.2 = Value.null := by
  unfold ForEachFn.resolve at h
  split at h
  · simp at h
  · split at h
    · simp at h
    · injection h with h₁
      rw [← h₁]

/-- C6 witness: for_each over a one-element array with the identity closure
succeeds and returns null. -/
theorem forEach_success_returns_null_witness :
    ForEachFn.resolve (idClosure Unit) (fun u => .ok (u, Value.array [Value.integer 5])) ()
      = .ok ((), Value.null) ∧
    (((), Value.null) : Unit × Value).2 = Value.null :=
  ⟨rfl, forEach_success_returns_null (idClosure Unit)
    (fun u => .ok (u, Value.array [Value.integer 5])) () ((), Value.null) rfl⟩

/-- C7: for_each over an array runs the closure's `run_index_value` as a left
fold over the enumerated elements — one invocation per element, in list
order — and the enumeration pairs the indices `0 .. len-1`, ascending, with
the element at each index. -/
theorem forEach_array_visits_indices_in_order {σ : Type} (c : FunctionClosure σ)
    (s : σ) (xs : List Value) :
    ForEachFn.resolve c (fun u => .ok (u, Value.array xs)) s =
      (match List.foldlM (fun st p => c.runIndexValue st p.1 p.2) s xs.enum with
       | .error e => .error e
       | .ok s₂ => .ok (s₂, Value.null)) ∧
    xs.enum.map Prod.fst = List.range xs.length ∧
    xs.enum.map Prod.snd = xs := by
  refine ⟨?_, List.enum_map_fst xs, List.enum_map_snd xs⟩
  have hl := forEachLoop_indexValue_foldlM c xs.enum s
  simp only [ForEachFn.resolve, Value.iterItems, hl]

/-- C8: map_values with a closure that writes every value back unchanged
returns the object structurally unchanged, with the context untouched. -/
theorem mapValues_identity_closure {σ : Type} (c : FunctionClosure σ)
    (hid : ∀ (u : σ) (v : Value), c.mapValue u v = .ok (u, v))
    (s : σ) (entries : List (String × Value)) :
    MapValuesFn.resolve c (fun u => .ok (u, Value.object entries)) none s
      = .ok (s, Value.object entries) := by
  simp [MapValuesFn.resolve, resolveRecursiveFlag, intoIterMap, mapValuesShallow,
    mapObjEntries_id c.mapValue hid s entries, Except.map]

/-- C8 witness: the identity closure leaves a concrete two-entry object
exactly as it was. -/
theorem mapValues_identity_closure_witness :
    MapValuesFn.resolve (idClosure Unit)
        (fun u => .ok (u, Value.object [("a", Value.integer 1), ("b", Value.integer 2)]))
        none ()
      = .ok ((), Value.object [("a", Value.integer 1), ("b", Value.integer 2)]) :=
  mapValues_identity_closure (idClosure Unit) (fun _ _ => rfl) ()
    [("a", Value.integer 1), ("b", Value.integer 2)]

/-- C10: when the `recursive` argument is present and resolves to a
non-boolean value, map_values fails with the boolean-coercion error — for
every closure and every target expression, so the target operand is never
resolved and no closure invocation can occur. -/
theorem mapValues_nonboolean_recursive_errors {σ : Type} (recExpr : Expression σ)
    (s s₁ : σ) (rv : Value) (e : RuntimeError)
    (h₁ : recExpr s = .ok (s₁, rv)) (h₂ : rv.tryBoolean = .error e)
    (c : FunctionClosure σ) (value : Expression σ) :
    MapValuesFn.resolve c value (some recExpr) s = .error e := by
  simp [MapValuesFn.resolve, resolveRecursiveFlag, h₁, h₂]

/-- C10 witness: `recursive` resolving to the integer 1 aborts map_values with
the expected-boolean error even though the target expression itself would
fail with a different error — showing the target is not resolved first. -/
theorem mapValues_nonboolean_recursive_witness :
    MapValuesFn.resolve errClosure (fun _ => .error (RuntimeError.message "target"))
        (some (fun u => .ok (u, Value.integer 1))) ()
      = .error (RuntimeError.expectedBoolean (Value.integer 1)) :=
  mapValues_nonboolean_recursive_errors (fun u => .ok (u, Value.integer 1)) () ()
    (Value.integer 1) (RuntimeError.expectedBoolean (Value.integer 1)) rfl rfl errClosure
    (fun _ => .error (RuntimeError.message "target"))

end Vector
